import Mathlib

set_option maxHeartbeats 4000000
set_option maxRecDepth 10000

/-!
A shallow embedding of the core of an NES emulator (directory src/src of
the repository): the 6502 CPU arithmetic (ADC, the bit-serial compare
loop, BRK, the NMI service path), the memory bus with its address
decoding and OAM DMA, the PPU register file and tick loop, the
controller shift register, and the iNES ROM loader.  Machine integers
are modelled as Nat with explicit reduction modulo 2^8 or 2^16 where
the Rust code can wrap (release semantics); Rust code paths that abort
the process (array index out of bounds, explicit aborts) are modelled
with Option, where none marks the abort.
-/

/-- Status and accumulator fragment of the CPU register file (fields
reg_a and reg_stat of struct CPU, src/src/cpu.rs), the state touched by
the arithmetic instructions once the operand byte has been fetched. -/
structure Regs where
  reg_a : Nat
  reg_stat : Nat
deriving DecidableEq

/-- CPU::update_nz (src/src/cpu.rs:1470-1482): set the Zero and Negative
flags of the status byte from a result byte. -/
def updateNZ (stat res : Nat) : Nat :=
  let s1 := if res = 0 then stat ||| 0x02 else stat &&& 0xFD
  if res &&& 0x80 ≠ 0 then s1 ||| 0x80 else s1 &&& 0x7F

/-- Arithmetic core of CPU::adc (src/src/cpu.rs:313-328), applied after
the operand byte val has been fetched from the effective address. -/
def Regs.adc (r : Regs) (val : Nat) : Regs :=
  let cin := r.reg_stat &&& 0x01
  let res := r.reg_a + val + cin
  let cout := (res &&& 0x0100) >>> 8
  let a := res &&& 0xFF
  let s1 := if cout ≠ 0 then r.reg_stat ||| 0x01 else r.reg_stat &&& 0xFE
  let s2 := if cin + cout = 1 then s1 ||| 0x40 else s1 &&& 0xBF
  { reg_a := a, reg_stat := updateNZ s2 a }

/-- One iteration body of the bit-serial loop in CPU::cmp
(src/src/cpu.rs:949-973): a full adder at the current place bit.  The
loop only ever passes cin = 0 or 1, so bits is at most 7 and the final
arm below corresponds to the 0b111 case of the source match (whose
catch-all abort arm is unreachable). -/
def cmpBit (a v place cin res : Nat) : Nat × Nat :=
  let bits := (if place &&& v ≠ 0 then 1 else 0) +
    0b010 * (if place &&& a ≠ 0 then 1 else 0) + 0b100 * cin
  match bits with
  | 0b000 => (res &&& (0xFF ^^^ place), 0)
  | 0b001 | 0b010 | 0b100 => (res ||| place, 0)
  | 0b011 | 0b101 | 0b110 => (res &&& (0xFF ^^^ place), 1)
  | _ => (res ||| place, 1)

/-- The while loop of CPU::cmp (src/src/cpu.rs:945-975): place runs
through the bit positions 1, 2, ..., 0x80, and the u8 left shift then
makes it 0, ending the loop; fuel 9 covers the whole run.  Argument
order after v: fuel, place, cin, res, cout. -/
def cmpGo (a v : Nat) : Nat → Nat → Nat → Nat → Nat → Nat × Nat
  | 0, _, _, res, cout => (res, cout)
  | fuel+1, place, cin, res, cout =>
    if place = 0 then (res, cout)
    else
      let cin := if place ≠ 0x01 then cout else cin
      let rc := cmpBit a v place cin res
      cmpGo a v fuel ((place <<< 1) % 256) cin rc.1 rc.2

/-- Result byte and final carry of the CPU::cmp loop on accumulator
byte a and operand byte val: the operand is complemented in 8 bits
(u8 not) and pushed through the ripple-carry loop with initial
place = 1, cin = 1, res = 0, cout = 0. -/
def cmpCore (a val : Nat) : Nat × Nat :=
  cmpGo a (0xFF ^^^ (val % 256)) 9 0x01 1 0 0

/-- CPU::cmp (src/src/cpu.rs:926-986) after the operand byte has been
fetched: run the bit-serial loop, set Carry from its carry-out and NZ
from its result byte; the accumulator is not written. -/
def Regs.cmp (r : Regs) (val : Nat) : Regs :=
  let rc := cmpCore r.reg_a val
  let s1 := if rc.2 ≠ 0 then r.reg_stat ||| 0x01 else r.reg_stat &&& 0xFE
  { reg_a := r.reg_a, reg_stat := updateNZ s1 rc.1 }

/-- Reference compare, written from the wording of the spec: CMP
performs A minus operand as an 8-bit subtract, sets Carry when there is
no borrow (A at least the operand), and sets NZ from the result byte;
the accumulator is left unchanged. -/
def Regs.cmpSpecSub (r : Regs) (val : Nat) : Regs :=
  let res := (r.reg_a + 256 - val % 256) % 256
  let s1 := if val % 256 ≤ r.reg_a then r.reg_stat ||| 0x01 else r.reg_stat &&& 0xFE
  { reg_a := r.reg_a, reg_stat := updateNZ s1 res }

/-- Controller state (src/src/input.rs:25-30): one-hot shift mask,
button byte (bit 7 = A down to bit 0 = Right), strobe flag. -/
structure Controller where
  shift : Nat
  button_states : Nat
  strobe : Bool
deriving DecidableEq

/-- Controller::new (src/src/input.rs:32-39). -/
def Controller.new : Controller := ⟨0x80, 0x00, false⟩

/-- Controller::read (src/src/input.rs:40-52): report the button under
the mask, and when the strobe is clear shift the mask right, reloading
it to the A position when it reaches 0. -/
def Controller.read (c : Controller) : Nat × Controller :=
  let res := if c.button_states &&& c.shift ≠ 0 then 0x01 else 0
  if c.strobe then (res, c)
  else
    let sh := c.shift >>> 1
    let sh := if sh = 0 then 0x80 else sh
    (res, { c with shift := sh })

/-- Controller::set_strobe (src/src/input.rs:53-56). -/
def Controller.set_strobe (c : Controller) : Controller :=
  { c with strobe := true, shift := 0x80 }

/-- Controller::reset_strobe (src/src/input.rs:57-59). -/
def Controller.reset_strobe (c : Controller) : Controller :=
  { c with strobe := false }

/-- The controller state reached from c after n reads. -/
def Controller.afterReads (c : Controller) : Nat → Controller
  | 0 => c
  | n+1 => Controller.afterReads (c.read).2 n

/-- Name-table mirroring mode (src/src/rom.rs:1-6). -/
inductive Mirroring where
  | VERTICAL
  | HORIZONTAL
  | FOUR_SCREEN
deriving DecidableEq

/-- A parsed cartridge image (struct Rom, src/src/rom.rs:12-17). -/
structure Rom where
  prg_rom : List Nat
  chr_rom : List Nat
  mapper : Nat
  screen_mirroring : Mirroring
deriving DecidableEq

/-- Rust slice raw[a..b] of a byte vector: aborts (none) when the range
is out of bounds. -/
def sliceRange (l : List Nat) (a b : Nat) : Option (List Nat) :=
  if a ≤ b ∧ b ≤ l.length then some ((l.drop a).take (b - a)) else none

/-- The iNES magic bytes (src/src/rom.rs:8). -/
def NES_TAG : List Nat := [0x4E, 0x45, 0x53, 0x1A]

/-- Rom::new (src/src/rom.rs:21-62): parse a raw byte vector into a Rom.
Aborts (none) exactly where the source aborts: bad magic, an iNES 2.0
version field, header bytes missing from the vector, or an
out-of-range slice.  The size and offset computations are u16
arithmetic in the source and wrap modulo 2^16 under release-mode
semantics.  The mapper id is computed from the high nibbles of bytes 6
and 7 and stored; the source has no check on its value. -/
def Rom.new (raw : List Nat) : Option Rom :=
  (sliceRange raw 0 4).bind fun tag =>
  if tag ≠ NES_TAG then none else
  raw[7]?.bind fun b7 =>
  raw[6]?.bind fun b6 =>
  let mapper := (b7 &&& 0xF0) ||| (b6 >>> 4)
  let ines_ver := (b7 >>> 2) &&& 0x03
  if ines_ver ≠ 0 then none else
  let screen_mirroring :=
    if b6 &&& 0x08 ≠ 0 then Mirroring.FOUR_SCREEN
    else if b6 &&& 0x01 ≠ 0 then Mirroring.VERTICAL
    else Mirroring.HORIZONTAL
  raw[4]?.bind fun b4 =>
  raw[5]?.bind fun b5 =>
  let prg_rom_size := b4 * 0x4000 % 65536
  let chr_rom_size := b5 * 0x2000 % 65536
  let prg_rom_start := (0x0010 + 0x0080 * (b6 &&& 0x04)) % 65536
  let chr_rom_start := (prg_rom_start + prg_rom_size) % 65536
  (sliceRange raw prg_rom_start ((prg_rom_start + prg_rom_size) % 65536)).bind fun prg_rom =>
  (sliceRange raw chr_rom_start ((chr_rom_start + chr_rom_size) % 65536)).bind fun chr_rom =>
  some { prg_rom := prg_rom, chr_rom := chr_rom, mapper := mapper,
         screen_mirroring := screen_mirroring }

/-- PPU state (struct PPU, src/src/ppu.rs:5-35). -/
structure PPU where
  chr_rom : List Nat
  palette_table : List Nat
  vram : List Nat
  oam_data : List Nat
  mirroring : Mirroring
  addr_hi : Nat
  addr_lo : Nat
  ctrl : Nat
  mask : Nat
  stat : Nat
  oam_addr : Nat
  fetch_scroll_x : Nat
  fetch_scroll_y : Nat
  scroll_x : Nat
  scroll_y : Nat
  data_buf : Nat
  v : Nat
  t : Nat
  x : Nat
  addr_latch : Bool
  cycles : Nat
  scanlines : Nat
  nmi_interrupt : Bool
deriving DecidableEq

/-- PPU::new (src/src/ppu.rs:38-126). -/
def PPU.new (chr_rom : List Nat) (mirroring : Mirroring) : PPU where
  chr_rom := chr_rom
  palette_table := List.replicate 0x20 0
  vram := List.replicate 0x800 0
  oam_data := List.replicate 0x100 0
  mirroring := mirroring
  addr_hi := 0
  addr_lo := 0
  ctrl := 0
  mask := 0
  stat := 0
  oam_addr := 0
  fetch_scroll_x := 0
  fetch_scroll_y := 0
  scroll_x := 0
  scroll_y := 0
  data_buf := 0
  v := 0
  t := 0
  x := 0
  addr_latch := false
  cycles := 21
  scanlines := 0
  nmi_interrupt := false

/-- PPU::mirror_vram_addr (src/src/ppu.rs:321-332): map a name-table
address to an index into the 2 KiB VRAM according to the mirroring
mode. -/
def PPU.mirror_vram_addr (p : PPU) (addr : Nat) : Nat :=
  let mirrored_vram := addr &&& 0x2FFF
  let vram_idx := mirrored_vram - 0x2000
  let name_table := vram_idx / 0x400
  match p.mirroring, name_table with
  | Mirroring.VERTICAL, 2 | Mirroring.VERTICAL, 3
  | Mirroring.HORIZONTAL, 3 => vram_idx - 0x800
  | Mirroring.HORIZONTAL, 2 | Mirroring.HORIZONTAL, 1 => vram_idx - 0x400
  | _, _ => vram_idx

/-- PPU::is_sprite_0_hit (src/src/ppu.rs:193-197).  The u16 subtraction
scanlines - 4 wraps modulo 2^16. -/
def PPU.is_sprite_0_hit (p : PPU) (cycle : Nat) : Bool :=
  let y := p.oam_data.getD 0 0
  let x := p.oam_data.getD 3 0
  decide (y = (p.scanlines + 65536 - 4) % 65536 ∧ x ≤ cycle ∧ p.mask &&& 0x10 ≠ 0)

/-- One iteration of the for loop in PPU::tick (src/src/ppu.rs:129-174):
advance the dot counter and run the v-register and end-of-scanline
updates keyed on its new value. -/
def PPU.tickStep (p : PPU) : PPU :=
  let p : PPU := { p with cycles := (p.cycles + 1) % 65536 }
  let p : PPU :=
    if p.cycles = 256 then
      if p.v &&& 0x7000 ≠ 0x7000 then { p with v := (p.v + 0x1000) % 65536 }
      else
        let v1 := p.v &&& 0x8FFF
        let y0 := (v1 &&& 0x03E0) >>> 5
        let yv : Nat × Nat :=
          if y0 = 29 then (0, v1 ^^^ 0x0800)
          else if y0 = 31 then (0, v1)
          else (y0 + 1, v1)
        { p with v := (yv.2 &&& 0xFC1F) ||| (yv.1 <<< 5) }
    else p
  let p : PPU :=
    if p.cycles = 257 then
      { p with scroll_x := p.fetch_scroll_x, v := (p.v &&& 0x7BE0) ||| (p.t &&& 0x041F) }
    else p
  let p : PPU :=
    if p.scanlines = 261 ∧ 280 ≤ p.cycles ∧ p.cycles ≤ 304 then
      { p with scroll_y := p.fetch_scroll_y, v := (p.v &&& 0x041F) ||| (p.t &&& 0x7BE0) }
    else p
  let p : PPU :=
    if p.cycles = 328 ∨ p.cycles = 336 ∨ (0 < p.cycles ∧ p.cycles ≤ 256 ∧ p.cycles % 8 = 0) then
      if p.v &&& 0x001F = 31 then { p with v := (p.v &&& 0xFFE0) ^^^ 0x0400 }
      else { p with v := (p.v + 1) % 65536 }
    else p
  if p.cycles ≥ 341 then
    let p := if p.is_sprite_0_hit p.cycles then { p with stat := p.stat ||| 0x40 } else p
    { p with cycles := 0, scanlines := (p.scanlines + 1) % 65536 }
  else p

/-- The for loop of PPU::tick run n times. -/
def PPU.tickLoop (p : PPU) : Nat → PPU
  | 0 => p
  | n+1 => PPU.tickLoop p.tickStep n

/-- PPU::tick (src/src/ppu.rs:128-191): run the dot loop, then the
vblank check at scanline 241 and the frame wrap after scanline 261;
returns the updated PPU and whether a frame boundary was crossed. -/
def PPU.tick (p : PPU) (cycles : Nat) : PPU × Bool :=
  let p := p.tickLoop cycles
  let p :=
    if p.scanlines = 241 then
      let p := { p with stat := (p.stat ||| 0x80) &&& 0xBF }
      if p.ctrl &&& 0x80 ≠ 0 then { p with nmi_interrupt := true } else p
    else p
  if p.scanlines > 261 then
    ({ p with scanlines := 0, nmi_interrupt := false, stat := p.stat &&& 0x3F }, true)
  else (p, false)

/-- PPU::addr_write (src/src/ppu.rs:199-209). -/
def PPU.addr_write (p : PPU) (val : Nat) : PPU :=
  let p :=
    if p.addr_latch then
      { p with addr_lo := val, t := (p.t &&& 0x00FF) ||| ((val &&& 0x003F) <<< 8) }
    else
      { p with addr_hi := val, t := (p.t &&& 0xFF00) ||| (val &&& 0x00FF),
               v := (p.t &&& 0xFF00) ||| (val &&& 0x00FF) }
  { p with addr_latch := !p.addr_latch }

/-- PPU::ctrl_write (src/src/ppu.rs:210-217). -/
def PPU.ctrl_write (p : PPU) (val : Nat) : PPU :=
  let prev_nmi_stat := p.ctrl &&& 0x80 ≠ 0
  let p := { p with ctrl := val }
  let p :=
    if ¬prev_nmi_stat ∧ p.ctrl &&& 0x80 ≠ 0 ∧ p.stat &&& 0x80 ≠ 0 then
      { p with nmi_interrupt := true }
    else p
  { p with t := (p.t &&& 0xF3FF) ||| ((val &&& 0x0003) <<< 10) }

/-- PPU::mask_write (src/src/ppu.rs:218-220). -/
def PPU.mask_write (p : PPU) (val : Nat) : PPU := { p with mask := val }

/-- PPU::stat_read (src/src/ppu.rs:221-226): returns the status byte,
clears its vblank bit and resets the shared write latch. -/
def PPU.stat_read (p : PPU) : Nat × PPU :=
  (p.stat, { p with stat := p.stat &&& 0x7F, addr_latch := false })

/-- PPU::inc_vram_addr (src/src/ppu.rs:227-235). -/
def PPU.inc_vram_addr (p : PPU) : PPU :=
  let step := if p.ctrl &&& 0x04 ≠ 0 then 32 else 1
  let lo := p.addr_lo + step
  let p :=
    if lo ≥ 256 then { p with addr_lo := lo % 256, addr_hi := (p.addr_hi + 1) % 256 }
    else { p with addr_lo := lo }
  { p with v := (p.v + step) % 65536 }

/-- PPU::oam_addr_write (src/src/ppu.rs:236-238). -/
def PPU.oam_addr_write (p : PPU) (val : Nat) : PPU := { p with oam_addr := val }

/-- PPU::oam_write (src/src/ppu.rs:239-242).  The OAM cursor is always
below 256, the length of oam_data, so the write is in bounds. -/
def PPU.oam_write (p : PPU) (val : Nat) : PPU :=
  { p with oam_data := p.oam_data.set p.oam_addr val, oam_addr := (p.oam_addr + 1) % 256 }

/-- PPU::oam_read (src/src/ppu.rs:243-245). -/
def PPU.oam_read (p : PPU) : Nat := p.oam_data.getD p.oam_addr 0

/-- List update that aborts (none) out of bounds, matching Rust array
indexing on the left of an assignment. -/
def setChecked (l : List Nat) (i v : Nat) : Option (List Nat) :=
  if i < l.length then some (l.set i v) else none

/-- The copy loop of PPU::write_oam_dma (src/src/ppu.rs:247-249): byte i
of the DMA page goes to oam_data[oam_addr + i] with no wrap, so the
write aborts when oam_addr + i reaches past the end of OAM.  Arguments:
current OAM, base cursor, page data, next index i, remaining count. -/
def oamDmaCopy (base : Nat) (data : List Nat) : List Nat → Nat → Nat → Option (List Nat)
  | oam, _, 0 => some oam
  | oam, i, count+1 =>
    (data[i]?).bind fun d =>
    (setChecked oam (base + i) d).bind fun oam =>
    oamDmaCopy base data oam (i+1) count

/-- PPU::write_oam_dma (src/src/ppu.rs:246-260): copy the 256-byte page
into OAM starting at the OAM cursor (no wrap), then advance the PPU
clock by 513 or 514 dots. -/
def PPU.write_oam_dma (p : PPU) (data : List Nat) : Option PPU :=
  (oamDmaCopy p.oam_addr data p.oam_data 0 256).bind fun oam =>
  let p := { p with oam_data := oam }
  let p := (p.tick 255).1
  let p := (p.tick 255).1
  some (p.tick (3 + p.cycles % 2)).1

/-- PPU::scroll_write (src/src/ppu.rs:261-271). -/
def PPU.scroll_write (p : PPU) (val : Nat) : PPU :=
  let p :=
    if p.addr_latch then
      { p with fetch_scroll_y := val, t := (p.t &&& 0xFFE0) ||| (val >>> 3), x := val &&& 0x03 }
    else
      { p with fetch_scroll_x := val,
               t := (p.t &&& 0x0C1F) ||| ((val <<< 12) % 65536) ||| ((val &&& 0xF8) <<< 2) }
  { p with addr_latch := !p.addr_latch }

/-- PPU::read (src/src/ppu.rs:272-297): the buffered PPUDATA read at the
current VRAM pointer; aborts in the unused 3000-3EFF window and above
3FFF, as the source does. -/
def PPU.readData (p : PPU) : Option (Nat × PPU) :=
  let addr := (p.addr_hi <<< 8) ||| p.addr_lo
  let p := p.inc_vram_addr
  if addr ≤ 0x1FFF then do
    let fresh ← p.chr_rom[addr]?
    some (p.data_buf, { p with data_buf := fresh })
  else if addr ≤ 0x2FFF then do
    let fresh ← p.vram[p.mirror_vram_addr addr]?
    some (p.data_buf, { p with data_buf := fresh })
  else if addr ≤ 0x3EFF then none
  else if addr = 0x3F10 ∨ addr = 0x3F14 ∨ addr = 0x3F18 ∨ addr = 0x3F1C then
    do let res ← p.palette_table[(addr - 0x10) &&& 0x001F]?; some (res, p)
  else if addr ≤ 0x3FFF then
    do let res ← p.palette_table[addr &&& 0x001F]?; some (res, p)
  else none

/-- PPU::write (src/src/ppu.rs:298-319): the PPUDATA write at the
current VRAM pointer (writes into character ROM space are ignored with
a warning), followed by the pointer increment. -/
def PPU.writeData (p : PPU) (data : Nat) : Option PPU := do
  let addr := (p.addr_hi <<< 8) ||| p.addr_lo
  let p ←
    if addr ≤ 0x1FFF then some p
    else if addr ≤ 0x2FFF then do
      let vr ← setChecked p.vram (p.mirror_vram_addr addr) data
      some { p with vram := vr }
    else if addr ≤ 0x3EFF then none
    else if addr = 0x3F10 ∨ addr = 0x3F14 ∨ addr = 0x3F18 ∨ addr = 0x3F1C then do
      let pt ← setChecked p.palette_table ((addr - 0x10) &&& 0x001F) data
      some { p with palette_table := pt }
    else if addr ≤ 0x3FFF then do
      let pt ← setChecked p.palette_table (addr &&& 0x001F) data
      some { p with palette_table := pt }
    else none
  some p.inc_vram_addr

/-- Bus state (struct Bus, src/src/bus.rs:6-13): 2 KiB work RAM, the
program ROM bytes, the PPU and the two controller ports. -/
structure Bus where
  cpu_vram : List Nat
  prg_rom : List Nat
  ppu : PPU
  port1 : Controller
  port2 : Controller
deriving DecidableEq

/-- Bus::new (src/src/bus.rs:16-24). -/
def Bus.new (rom : Rom) : Bus :=
  ⟨List.replicate 2048 0, rom.prg_rom, PPU.new rom.chr_rom rom.screen_mirroring,
   Controller.new, Controller.new⟩

/-- Bus::read_prg_rom (src/src/bus.rs:25-32): subtract the 0x8000 base
(u16 arithmetic), reduce modulo 0x4000 for a 16 KiB image when the
offset reaches the upper bank, and index the program ROM; an index past
the end of the vector aborts (none). -/
def Bus.read_prg_rom (b : Bus) (addr : Nat) : Option Nat :=
  let a := (addr + 65536 - 0x8000) % 65536
  let a := if b.prg_rom.length = 0x4000 ∧ a ≥ 0x4000 then a % 0x4000 else a
  b.prg_rom[a]?

/-- Bus::poll_nmi_status (src/src/bus.rs:33-35). -/
def Bus.poll_nmi_status (b : Bus) : Bool := b.ppu.nmi_interrupt

/-- Bus::tick (src/src/bus.rs:36-38). -/
def Bus.tickBus (b : Bus) (cycles : Nat) : Bus :=
  { b with ppu := (b.ppu.tick cycles).1 }

/-- Bus mem_read (src/src/bus.rs:50-76): decode a CPU address to its
byte source, with the Rust match arms checked in source order; the
2008-3FFF arm recurses on the address masked to 2000-2007, which lands
in a non-recursing arm, so the structural fuel counter (2 at the entry
point below) never runs out. -/
def Bus.memReadGo : Nat → Bus → Nat → Option (Nat × Bus)
  | 0, _, _ => none
  | fuel+1, b, addr =>
    if addr ≤ 0x1FFF then do
      let v ← b.cpu_vram[addr &&& 0x07FF]?
      some (v, b)
    else if addr = 0x2000 ∨ addr = 0x2001 ∨ addr = 0x2003 ∨ addr = 0x2005 ∨
        addr = 0x2006 ∨ addr = 0x4014 then
      some (0, b)
    else if addr = 0x2002 then
      some ((b.ppu.stat_read).1, { b with ppu := (b.ppu.stat_read).2 })
    else if addr = 0x2004 then
      some (b.ppu.oam_read, b)
    else if addr = 0x2007 then do
      let vp ← b.ppu.readData
      some (vp.1, { b with ppu := vp.2 })
    else if 0x2000 ≤ addr ∧ addr ≤ 0x3FFF then
      Bus.memReadGo fuel b (addr &&& 0x2007)
    else if addr = 0x4016 then
      some ((b.port1.read).1, { b with port1 := (b.port1.read).2 })
    else if addr = 0x4017 then
      some ((b.port2.read).1, { b with port2 := (b.port2.read).2 })
    else if 0x8000 ≤ addr ∧ addr ≤ 0xFFFF then do
      let v ← b.read_prg_rom addr
      some (v, b)
    else
      some (0, b)

/-- Entry point of Bus mem_read; fuel 2 covers the one level of
recursion of the register mirror arm. -/
def Bus.mem_read (b : Bus) (addr : Nat) : Option (Nat × Bus) :=
  Bus.memReadGo 2 b addr

/-- Bus mem_write (src/src/bus.rs:78-141): decode a CPU address to its
byte sink, with the Rust match arms checked in source order.  Writing
the PPU status register or cartridge ROM aborts; the 4014 write gathers
the DMA page from work RAM (masked into the 2 KiB) and hands it to the
PPU. -/
def Bus.memWriteGo : Nat → Bus → Nat → Nat → Option Bus
  | 0, _, _, _ => none
  | fuel+1, b, addr, data =>
    if addr ≤ 0x1FFF then do
      let vr ← setChecked b.cpu_vram (addr &&& 0x07FF) data
      some { b with cpu_vram := vr }
    else if addr = 0x2000 then some { b with ppu := b.ppu.ctrl_write data }
    else if addr = 0x2001 then some { b with ppu := b.ppu.mask_write data }
    else if addr = 0x2002 then none
    else if addr = 0x2003 then some { b with ppu := b.ppu.oam_addr_write data }
    else if addr = 0x2004 then some { b with ppu := b.ppu.oam_write data }
    else if addr = 0x2005 then some { b with ppu := b.ppu.scroll_write data }
    else if addr = 0x2006 then some { b with ppu := b.ppu.addr_write data }
    else if addr = 0x2007 then do
      let p ← b.ppu.writeData data
      some { b with ppu := p }
    else if 0x2008 ≤ addr ∧ addr ≤ 0x3FFF then
      Bus.memWriteGo fuel b (addr &&& 0x2007) data
    else if addr = 0x4014 then do
      let base := (data <<< 8) &&& 0x07FF
      let dma ← (List.range 256).mapM (fun i => b.cpu_vram[base + i]?)
      let p ← b.ppu.write_oam_dma dma
      some { b with ppu := p }
    else if addr = 0x4016 then
      some (if data &&& 0x01 ≠ 0 then { b with port1 := b.port1.set_strobe }
            else { b with port1 := b.port1.reset_strobe })
    else if addr = 0x4017 then
      some (if data &&& 0x01 ≠ 0 then { b with port2 := b.port2.set_strobe }
            else { b with port2 := b.port2.reset_strobe })
    else if 0x8000 ≤ addr ∧ addr ≤ 0xFFFF then none
    else some b

/-- Entry point of Bus mem_write; fuel 2 covers the one level of
recursion of the register mirror arm. -/
def Bus.mem_write (b : Bus) (addr data : Nat) : Option Bus :=
  Bus.memWriteGo 2 b addr data

/-- Bus mem_read16 (src/src/bus.rs:143-147): two little-endian byte
reads; the successor address wraps at the top of the u16 space. -/
def Bus.mem_read16 (b : Bus) (addr : Nat) : Option (Nat × Bus) :=
  (b.mem_read addr).bind fun lb =>
  (lb.2.mem_read ((addr + 1) % 65536)).bind fun hb =>
  some ((hb.1 <<< 8) ||| lb.1, hb.2)

/-- CPU state (struct CPU, src/src/cpu.rs:4-26), without the two
debug-print flags, which touch no modelled state. -/
structure CPU where
  nmi_flag : Bool
  cycles : Nat
  tot_cycles : Nat
  reg_a : Nat
  reg_x : Nat
  reg_y : Nat
  reg_stat : Nat
  reg_pc : Nat
  reg_sp : Nat
  mem_bus : Bus
deriving DecidableEq

/-- CPU::stack_push (src/src/cpu.rs:121-128): write at 0x0100 + SP (a
work-RAM address, so the bus write succeeds), then decrement SP with
wrap. -/
def CPU.stack_push (c : CPU) (val : Nat) : Option CPU :=
  (c.mem_bus.mem_write (0x0100 + c.reg_sp) val).bind fun b =>
  some { c with mem_bus := b, reg_sp := if c.reg_sp = 0 then 0xFF else c.reg_sp - 1 }

/-- CPU::stack_push16 (src/src/cpu.rs:130-135): the first pushed byte is
val >> 8 (the high byte, bound to a variable named lo in the source),
the second is val and 0xFF. -/
def CPU.stack_push16 (c : CPU) (val : Nat) : Option CPU :=
  (c.stack_push (val >>> 8)).bind fun c =>
  c.stack_push (val &&& 0x00FF)

/-- CPU mem_read16 (src/src/cpu.rs:60-62), delegating to the bus. -/
def CPU.mem_read16 (c : CPU) (addr : Nat) : Option (Nat × CPU) :=
  (c.mem_bus.mem_read16 addr).bind fun vb =>
  some (vb.1, { c with mem_bus := vb.2 })

/-- CPU::interrupt_nmi (src/src/cpu.rs:1462-1467).  Rust operator
precedence makes reg_stat | 0x20 & 0xEF parse as
reg_stat | (0x20 & 0xEF). -/
def CPU.interrupt_nmi (c : CPU) : Option CPU :=
  (c.stack_push16 c.reg_pc).bind fun c =>
  (c.stack_push (c.reg_stat ||| (0x20 &&& 0xEF))).bind fun c =>
  (c.mem_read16 0xFFFA).bind fun vc =>
  some { vc.2 with reg_pc := vc.1, reg_stat := vc.2.reg_stat ||| 0x04 }

/-- The NMI branch of CPU::interpret (src/src/cpu.rs:1487-1491), taken
at an instruction boundary when the bus signals a pending NMI and no
NMI is in service: service the NMI, arm the in-service latch, accrue
2 cycles.  Returns none when the branch is not taken (the instruction
dispatch path is not modelled here). -/
def CPU.nmiService (c : CPU) : Option CPU :=
  if c.mem_bus.poll_nmi_status ∧ ¬c.nmi_flag then
    (c.interrupt_nmi).bind fun c =>
    some { c with nmi_flag := true, cycles := (c.cycles + 2) % 256 }
  else none

/-- CPU::brk (src/src/cpu.rs:887-903): push PC (already advanced past
the BRK opcode byte by interpret), push the status byte with bits 4 and
5 set, load PC from the vector at 0xFFFE, then or 0x10 into the live
status register. -/
def CPU.brk (c : CPU) : Option CPU :=
  (c.stack_push16 c.reg_pc).bind fun c =>
  (c.stack_push (c.reg_stat ||| 0x30)).bind fun c =>
  (c.mem_read16 0xFFFE).bind fun vc =>
  some { vc.2 with reg_pc := vc.1, reg_stat := vc.2.reg_stat ||| 0x10 }

/-- Physical name table demanded by the spec for each logical table:
Horizontal sends logical tables 0 and 1 to physical 0 and tables 2 and
3 to physical 1; Vertical sends 0 and 2 to physical 0 and 1 and 3 to
physical 1; Four-screen is the identity.  Written from the wording of
the spec, for comparison with PPU.mirror_vram_addr. -/
def specNametable (m : Mirroring) (t : Nat) : Nat :=
  match m with
  | Mirroring.HORIZONTAL => t / 2
  | Mirroring.VERTICAL => t % 2
  | Mirroring.FOUR_SCREEN => t

/-- Physical VRAM index demanded by the spec for a name-table address
in 2000-2FFF: the logical table (one of the four 0x400 windows) goes to
the physical table of its equivalence class and the offset within the
table is kept.  Written from the wording of the spec. -/
def specMirror (m : Mirroring) (addr : Nat) : Nat :=
  specNametable m ((addr - 0x2000) / 0x400) * 0x400 + (addr - 0x2000) % 0x400

/-- A 16-byte iNES header whose byte 6 high nibble is 1 (so the mapper
id is 1) with zero-size program and character ROM: magic bytes, sizes
0, flags 0x10, flags 0, and eight zero padding bytes. -/
def rawMapper1 : List Nat :=
  [0x4E, 0x45, 0x53, 0x1A, 0, 0, 0x10] ++ List.replicate 9 0

/-- An all-zero 16 KiB program ROM image. -/
def zeroPrg : List Nat := List.replicate 0x4000 0

/-- A bus over the all-zero 16 KiB program ROM with no character ROM. -/
def busFix : Bus := Bus.new ⟨zeroPrg, [], 0, Mirroring.HORIZONTAL⟩

/-- A CPU at an instruction boundary with a pending NMI, no NMI in
service, status 0x30 (bits 4 and 5 set), SP = 0xFD and PC = 0x8000. -/
def cpuNmiFix : CPU :=
  ⟨false, 0, 0, 0, 0, 0, 0x30, 0x8000, 0xFD,
   { busFix with ppu := { busFix.ppu with nmi_interrupt := true } }⟩

/-- A CPU about to run the BRK body: status 0x20 (only bit 5 set),
SP = 0xFD, PC = 0x8001 (already past the BRK opcode byte). -/
def cpuBrkFix : CPU := ⟨false, 0, 0, 0, 0, 0, 0x20, 0x8001, 0xFD, busFix⟩

/-- A bus whose PPU OAM cursor is 1, as set by a write of 1 to 2003. -/
def busDmaFix : Bus := { busFix with ppu := { busFix.ppu with oam_addr := 1 } }

/-- A PPU one dot before the end of scanline 10, with sprites enabled
(MASK bit 4), sprite 0 at Y = 10 and X = 0, and a clear status byte. -/
def ppuHitFix : PPU :=
  { PPU.new [] Mirroring.HORIZONTAL with
      mask := 0x10, stat := 0, cycles := 340, scanlines := 10,
      oam_data := (List.replicate 0x100 0).set 0 10 }

/-- A controller with only the A button held (bit 7), strobe low and
the shift mask at the A position. -/
def ctlFix : Controller := ⟨0x80, 0x80, false⟩

lemma and_two_pow_ne (m k : Nat) : (2^k &&& m ≠ 0) ↔ m / 2^k % 2 = 1 := by
  rw [Nat.land_comm, Nat.and_two_pow]
  cases h : m.testBit k
  · rw [Nat.testBit_to_div_mod] at h
    simp only [decide_eq_false_iff_not] at h
    simp [h]
  · rw [Nat.testBit_to_div_mod] at h
    simp only [decide_eq_true_eq] at h
    have : (2:Nat)^k ≠ 0 := Nat.pos_iff_ne_zero.mp (Nat.pos_pow_of_pos k (by norm_num))
    simp [h, this]

lemma and_mask_eq_self (k res : Nat) (hk : k ≤ 7) (hres : res < 2^k) :
    res &&& (0xFF ^^^ 2^k) = res := by
  apply Nat.eq_of_testBit_eq
  intro i
  rw [Nat.testBit_land]
  cases h : res.testBit i
  · simp
  · have hik : i < k := by
      by_contra hge
      have hlt : res < 2^i :=
        lt_of_lt_of_le hres (Nat.pow_le_pow_right two_pos (by omega))
      rw [Nat.testBit_lt_two_pow hlt] at h
      cases h
    rw [show (0xFF:Nat) = 2^8 - 1 from rfl, Nat.testBit_xor,
        Nat.testBit_two_pow_sub_one, Nat.testBit_two_pow]
    have h8 : i < 8 := by omega
    have hne : ¬(k = i) := by omega
    simp [h8, hne]

lemma lor_two_pow_eq_add (k res : Nat) (hres : res < 2^k) : res ||| 2^k = res + 2^k := by
  apply Nat.eq_of_testBit_eq
  intro j
  rw [Nat.testBit_lor]
  rw [show res + 2^k = 2^k * 1 + res by ring]
  rw [Nat.testBit_mul_pow_two_add 1 hres j]
  by_cases hj : j < k
  · have hne : ¬(k = j) := by omega
    simp [hj, Nat.testBit_two_pow, hne]
  · have hlt : res < 2^j :=
      lt_of_lt_of_le hres (Nat.pow_le_pow_right two_pos (by omega))
    rw [Nat.testBit_lt_two_pow hlt]
    simp only [hj, if_false, Bool.false_or]
    rw [Nat.testBit_two_pow, show (1:Nat) = 2^0 from rfl, Nat.testBit_two_pow]
    by_cases hkj : k = j
    · subst hkj; simp
    · have : ¬(0 = j - k) := by omega
      simp [hkj, this]

lemma ite_and_bit (m k : Nat) : (if 2^k &&& m ≠ 0 then 1 else 0) = m / 2^k % 2 := by
  have hlt : m / 2^k % 2 < 2 := Nat.mod_lt _ (by norm_num)
  by_cases h : 2^k &&& m ≠ 0
  · simp [h, (and_two_pow_ne m k).mp h]
  · have : ¬(m / 2^k % 2 = 1) := fun hh => h ((and_two_pow_ne m k).mpr hh)
    simp [h]
    omega

lemma cmpBit_spec (k a v res c : Nat) (hk : k ≤ 7) (hc : c ≤ 1) (hres : res < 2^k) :
    cmpBit a v (2^k) c res =
      (res + ((a / 2^k % 2 + v / 2^k % 2 + c) % 2) * 2^k,
       (a / 2^k % 2 + v / 2^k % 2 + c) / 2) := by
  have hva2 : v / 2^k % 2 < 2 := Nat.mod_lt _ (by norm_num)
  have haa2 : a / 2^k % 2 < 2 := Nat.mod_lt _ (by norm_num)
  have hA := and_mask_eq_self k res hk hres
  have hO := lor_two_pow_eq_add k res hres
  unfold cmpBit
  rw [ite_and_bit v k, ite_and_bit a k]
  rcases (by omega : a / 2^k % 2 = 0 ∨ a / 2^k % 2 = 1) with hx | hx <;>
    rcases (by omega : v / 2^k % 2 = 0 ∨ v / 2^k % 2 = 1) with hy | hy <;>
    rcases (by omega : c = 0 ∨ c = 1) with hc0 | hc0 <;>
    rw [hx, hy, hc0] <;> norm_num <;> simp [hA, hO]

lemma carry_step (a v k : Nat) (hk : k ≤ 7) :
    (a % 2^k + v % 2^k + 1) % 2^k +
      ((a / 2^k % 2 + v / 2^k % 2 + (a % 2^k + v % 2^k + 1) / 2^k) % 2) * 2^k
      = (a % 2^(k+1) + v % 2^(k+1) + 1) % 2^(k+1) ∧
    (a / 2^k % 2 + v / 2^k % 2 + (a % 2^k + v % 2^k + 1) / 2^k) / 2
      = (a % 2^(k+1) + v % 2^(k+1) + 1) / 2^(k+1) := by
  interval_cases k <;> constructor <;> norm_num <;> omega

lemma div_bound_one (a v k : Nat) : (a % 2^k + v % 2^k + 1) / 2^k ≤ 1 := by
  have hm : (0:Nat) < 2^k := Nat.pos_pow_of_pos _ (by norm_num)
  have h1 : a % 2^k < 2^k := Nat.mod_lt _ hm
  have h2 : v % 2^k < 2^k := Nat.mod_lt _ hm
  have : a % 2^k + v % 2^k + 1 < 2 * 2^k := by omega
  have := (Nat.div_lt_iff_lt_mul hm).mpr this
  omega

lemma cmpGo_invariant (a v : Nat) (ha : a < 256) (hv : v < 256) :
    ∀ j k cinp res cout, j + k = 8 → (k = 0 → cinp = 1) →
    res = (a % 2^k + v % 2^k + 1) % 2^k →
    (1 ≤ k → cout = (a % 2^k + v % 2^k + 1) / 2^k) →
    cmpGo a v (9-k) (2^k % 256) cinp res cout = ((a + v + 1) % 256, (a + v + 1) / 256) := by
  intro j
  induction j with
  | zero =>
    intro k cinp res cout hjk hcin hres hcout
    have hk8 : k = 8 := by omega
    subst hk8
    rw [show (2:Nat)^8 % 256 = 0 from rfl, show (9:Nat) - 8 = 0 + 1 from rfl]
    have h1 : res = (a + v + 1) % 256 := by
      rw [hres]; norm_num [Nat.mod_eq_of_lt ha, Nat.mod_eq_of_lt hv]
    have h2 : cout = (a + v + 1) / 256 := by
      rw [hcout (by omega)]; norm_num [Nat.mod_eq_of_lt ha, Nat.mod_eq_of_lt hv]
    simp only [cmpGo]
    norm_num [h1, h2]
  | succ n ih =>
    intro k cinp res cout hjk hcin hres hcout
    have hk : k ≤ 7 := by omega
    have hplt : (2:Nat)^k < 256 := by
      calc (2:Nat)^k ≤ 2^7 := Nat.pow_le_pow_right (by norm_num) hk
      _ < 256 := by norm_num
    rw [Nat.mod_eq_of_lt hplt]
    rw [show 9 - k = (8 - k) + 1 by omega]
    simp only [cmpGo]
    rw [if_neg (Nat.pos_iff_ne_zero.mp (Nat.pos_pow_of_pos k (by norm_num)))]
    have hcineq : (if 2^k ≠ 0x01 then cout else cinp) = (a % 2^k + v % 2^k + 1) / 2^k := by
      rcases Nat.eq_zero_or_pos k with hk0 | hk1
      · subst hk0
        simp only [pow_zero, ne_eq, not_true_eq_false, if_false]
        rw [hcin rfl]
        simp [Nat.mod_one]
      · have : (2:Nat)^k ≠ 1 := by
          have : (2:Nat)^1 ≤ 2^k := Nat.pow_le_pow_right (by norm_num) hk1
          omega
        rw [if_pos this, hcout hk1]
    rw [hcineq]
    rw [hres]
    rw [cmpBit_spec k a v _ _ hk (div_bound_one a v k)
      (Nat.mod_lt _ (Nat.pos_pow_of_pos _ (by norm_num)))]
    have hcs := carry_step a v k hk
    have hshift : ((2:Nat)^k <<< 1) % 256 = 2^(k+1) % 256 := by
      have : ((2:Nat)^k <<< 1) = 2^(k+1) := by rw [Nat.shiftLeft_eq]; ring
      rw [this]
    have hfuel : (8:Nat) - k = 9 - (k+1) := by omega
    rw [hshift, hfuel]
    exact ih (k+1) ((a % 2^k + v % 2^k + 1) / 2^k)
      ((a % 2^k + v % 2^k + 1) % 2^k +
        ((a / 2^k % 2 + v / 2^k % 2 + (a % 2^k + v % 2^k + 1) / 2^k) % 2) * 2^k)
      ((a / 2^k % 2 + v / 2^k % 2 + (a % 2^k + v % 2^k + 1) / 2^k) / 2)
      (by omega) (by omega)
      (by rw [hcs.1]) (fun _ => by rw [hcs.2])

lemma cmpCore_spec (a val : Nat) (ha : a < 256) (hval : val < 256) :
    cmpCore a val = ((a + 256 - val) % 256, if val ≤ a then 1 else 0) := by
  unfold cmpCore
  have hxor : ∀ w, w < 256 → 0xFF ^^^ w = 255 - w := by decide
  rw [Nat.mod_eq_of_lt hval, hxor val hval]
  have hv2 : 255 - val < 256 := by omega
  have happ := cmpGo_invariant a (255 - val) ha hv2 8 0 1 0 0 (by omega) (fun _ => rfl)
    (by simp [Nat.mod_one]) (by omega)
  norm_num at happ
  rw [happ]
  have he : a + (255 - val) + 1 = a + 256 - val := by omega
  rw [he]
  congr 1
  rcases le_or_lt val a with h | h
  · rw [if_pos h]
    omega
  · rw [if_neg (by omega)]
    omega

/-- C9: for every accumulator byte and operand byte, the bit-serial
ripple-carry loop inside CMP agrees with the reference 8-bit subtract
A minus M: Carry is set exactly when A is at least M, Z and N come from
the byte (A minus M) mod 256, and the accumulator is unchanged. -/
theorem cmp_matches_reference_subtract (r : Regs) (val : Nat)
    (ha : r.reg_a < 256) (hval : val < 256) :
    r.cmp val = r.cmpSpecSub val ∧ (r.cmp val).reg_a = r.reg_a := by
  constructor
  · unfold Regs.cmp Regs.cmpSpecSub
    rw [cmpCore_spec r.reg_a val ha hval]
    rw [Nat.mod_eq_of_lt hval]
    rcases le_or_lt val r.reg_a with h | h
    · simp [h]
    · have h2 : ¬(val ≤ r.reg_a) := by omega
      simp [h2]
  · rfl

/-- Witness for C9 at A = 5, M = 3. -/
theorem cmp_matches_reference_subtract_witness :
    Regs.cmp ⟨5, 0⟩ 3 = Regs.cmpSpecSub ⟨5, 0⟩ 3 ∧ (Regs.cmp ⟨5, 0⟩ 3).reg_a = 5 :=
  cmp_matches_reference_subtract ⟨5, 0⟩ 3 (by norm_num) (by norm_num)

lemma testBit_or_false (y m i : Nat) (h : m.testBit i = false) :
    (y ||| m).testBit i = y.testBit i := by
  rw [Nat.testBit_lor, h, Bool.or_false]

lemma testBit_or_true (y m i : Nat) (h : m.testBit i = true) :
    (y ||| m).testBit i = true := by
  rw [Nat.testBit_lor, h, Bool.or_true]

lemma testBit_and_true (y m i : Nat) (h : m.testBit i = true) :
    (y &&& m).testBit i = y.testBit i := by
  rw [Nat.testBit_land, h, Bool.and_true]

lemma testBit_and_false (y m i : Nat) (h : m.testBit i = false) :
    (y &&& m).testBit i = false := by
  rw [Nat.testBit_land, h, Bool.and_false]

lemma updateNZ_testBit (y r i : Nat) (hi : i < 8) (h1 : i ≠ 1) (h7 : i ≠ 7) :
    (updateNZ y r).testBit i = y.testBit i := by
  have hne1 : ¬(1 = i) := fun hh => h1 hh.symm
  have hne7 : ¬(7 = i) := fun hh => h7 hh.symm
  have hi7 : i < 7 := by omega
  have c02 : (0x02:Nat).testBit i = false := by
    rw [show (0x02:Nat) = 2^1 from rfl, Nat.testBit_two_pow]; simp [hne1]
  have cFD : (0xFD:Nat).testBit i = true := by
    rw [show (0xFD:Nat) = (2^8 - 1) ^^^ 2^1 from rfl, Nat.testBit_xor,
        Nat.testBit_two_pow_sub_one, Nat.testBit_two_pow]
    simp [hi, hne1]
  have c80 : (0x80:Nat).testBit i = false := by
    rw [show (0x80:Nat) = 2^7 from rfl, Nat.testBit_two_pow]; simp [hne7]
  have c7F : (0x7F:Nat).testBit i = true := by
    rw [show (0x7F:Nat) = 2^7 - 1 from rfl, Nat.testBit_two_pow_sub_one]; simp [hi7]
  unfold updateNZ
  split <;> split <;>
    simp [Nat.testBit_lor, Nat.testBit_land, c02, cFD, c80, c7F]

lemma and_one_testBit (y : Nat) : y &&& 1 = (y.testBit 0).toNat := by
  rw [show (1:Nat) = 2^0 from rfl, Nat.and_two_pow]
  simp

lemma and_forty_testBit (y : Nat) : y &&& 0x40 = (y.testBit 6).toNat * 0x40 := by
  rw [show (0x40:Nat) = 2^6 from rfl, Nat.and_two_pow]

lemma and512 : ∀ x < 512, x &&& 0xFF = x % 256 ∧ (x &&& 0x100) >>> 8 = x / 256 := by
  decide

/-- C1 counterexample: at A = 0x40, M = 0x40, C = 0 the code computes
A2 = 0x80 and leaves the Overflow flag clear, although the formula
((A xor A2) and (M xor A2) and 0x80) of the claim is nonzero. -/
theorem adc_overflow_counterexample :
    (Regs.adc ⟨0x40, 0⟩ 0x40).reg_a = 0x80 ∧
    (Regs.adc ⟨0x40, 0⟩ 0x40).reg_stat &&& 0x40 = 0 ∧
    ((0x40 ^^^ 0x80) &&& ((0x40:Nat) ^^^ 0x80) &&& 0x80 ≠ 0) := by decide

/-- C1 amended: after ADC on accumulator A, operand M and carry flag C
(low bit of the status byte), the accumulator holds (A+M+C) mod 256 and
Carry holds bit 8 of A+M+C, as the claim states; the Overflow flag,
however, is set if and only if the incoming carry C differs from the
outgoing carry bit 8 (C + ((A+M+C) >> 8) = 1), not by the sign formula
of the claim. -/
theorem adc_amended (a v stat : Nat) (ha : a < 256) (hv : v < 256) (hs : stat < 256) :
    (Regs.adc ⟨a, stat⟩ v).reg_a = (a + v + (stat &&& 1)) % 256 ∧
    (Regs.adc ⟨a, stat⟩ v).reg_stat &&& 1 = (a + v + (stat &&& 1)) / 256 ∧
    ((Regs.adc ⟨a, stat⟩ v).reg_stat &&& 0x40 = 0x40 ↔
      (stat &&& 1) + (a + v + (stat &&& 1)) / 256 = 1) := by
  have hc1 : stat &&& 1 ≤ 1 := Nat.and_le_right
  have hslt : a + v + (stat &&& 1) < 512 := by omega
  obtain ⟨e1, e2⟩ := and512 _ hslt
  have hd1 : (a + v + (stat &&& 1)) / 256 ≤ 1 := by omega
  simp only [Regs.adc]
  rw [e1, e2]
  refine ⟨rfl, ?_, ?_⟩
  · rw [and_one_testBit, updateNZ_testBit _ _ 0 (by omega) (by omega) (by omega)]
    by_cases hV : (stat &&& 1) + (a + v + (stat &&& 1)) / 256 = 1
    · rw [if_pos hV, testBit_or_false _ _ _ (by decide)]
      by_cases hC : (a + v + (stat &&& 1)) / 256 ≠ 0
      · rw [if_pos hC, testBit_or_true _ _ _ (by decide)]
        simp only [Bool.toNat_true]
        omega
      · rw [if_neg hC, testBit_and_false _ _ _ (by decide)]
        simp only [Bool.toNat_false]
        omega
    · rw [if_neg hV, testBit_and_true _ _ _ (by decide)]
      by_cases hC : (a + v + (stat &&& 1)) / 256 ≠ 0
      · rw [if_pos hC, testBit_or_true _ _ _ (by decide)]
        simp only [Bool.toNat_true]
        omega
      · rw [if_neg hC, testBit_and_false _ _ _ (by decide)]
        simp only [Bool.toNat_false]
        omega
  · rw [and_forty_testBit, updateNZ_testBit _ _ 6 (by omega) (by omega) (by omega)]
    by_cases hV : (stat &&& 1) + (a + v + (stat &&& 1)) / 256 = 1
    · rw [if_pos hV, testBit_or_true _ _ _ (by decide)]
      exact iff_of_true (by norm_num) hV
    · rw [if_neg hV, testBit_and_false _ _ _ (by decide)]
      exact iff_of_false (by norm_num) hV

/-- Witness for the amended C1 at A = 5, M = 7, C = 1. -/
theorem adc_amended_witness :
    (Regs.adc ⟨5, 1⟩ 7).reg_a = (5 + 7 + (1 &&& 1)) % 256 ∧
    (Regs.adc ⟨5, 1⟩ 7).reg_stat &&& 1 = (5 + 7 + (1 &&& 1)) / 256 ∧
    ((Regs.adc ⟨5, 1⟩ 7).reg_stat &&& 0x40 = 0x40 ↔
      (1 &&& 1) + (5 + 7 + (1 &&& 1)) / 256 = 1) :=
  adc_amended 5 7 1 (by norm_num) (by norm_num) (by norm_num)

lemma afterReads_succ (c : Controller) (n : Nat) :
    Controller.afterReads c (n+1) = ((Controller.afterReads c n).read).2 := by
  induction n generalizing c with
  | zero => rfl
  | succ m ih =>
    show Controller.afterReads (c.read).2 (m+1) = _
    rw [ih]
    rfl

lemma and_two_pow_ne_zero_iff (m k : Nat) : (m &&& 2^k ≠ 0) ↔ m.testBit k = true := by
  rw [Nat.and_two_pow]
  cases h : m.testBit k
  · simp
  · have : (2:Nat)^k ≠ 0 := pow_ne_zero _ (by norm_num)
    simp [this]

lemma controller_state (bs n : Nat) :
    Controller.afterReads ⟨0x80, bs, false⟩ n = ⟨2^(7 - n % 8), bs, false⟩ := by
  induction n with
  | zero => rfl
  | succ m ih =>
    rw [afterReads_succ, ih]
    show ((⟨2^(7 - m % 8), bs, false⟩ : Controller).read).2 = _
    unfold Controller.read
    rcases (by omega : m % 8 = 7 ∨ m % 8 < 7) with h7 | h7
    · rw [h7, show (m+1) % 8 = 0 by omega]
      norm_num [show (1:Nat) >>> 1 = 0 from rfl]
    · have hsh : (2:Nat)^(7 - m % 8) >>> 1 = 2^(6 - m % 8) := by
        rw [Nat.shiftRight_eq_div_pow, show 7 - m % 8 = (6 - m % 8) + 1 by omega, pow_succ]
        simp
      have hne : (2:Nat)^(6 - m % 8) ≠ 0 := pow_ne_zero _ (by norm_num)
      rw [show (7:Nat) - (m+1) % 8 = 6 - m % 8 by omega]
      simp [hsh, hne]

/-- C5 amended: with the strobe low and the shift mask at the A
position, read number n (counting from 0) returns the button bit at
position 7 - n mod 8: the first eight reads return A, B, Select, Start,
Up, Down, Left, Right, the mask then reloads to the A position, and the
cycle repeats (the ninth read returns A, the tenth B, and so on) until
the strobe is set. -/
theorem controller_reads_cycle (bs n : Nat) :
    ((Controller.afterReads ⟨0x80, bs, false⟩ n).read).1
      = if bs.testBit (7 - n % 8) then 1 else 0 := by
  rw [controller_state]
  unfold Controller.read
  simp only [and_two_pow_ne_zero_iff]
  by_cases hb : bs.testBit (7 - n % 8) <;> simp [hb]

/-- C5 counterexample: with only the A button held, the strobe low and
the mask at the A position, the tenth read (read index 9) returns 0,
not the A bit, which is 1: after eight reads the mask reloads to A, so
the ninth read returns A and the tenth returns B again. -/
theorem controller_claim_counterexample :
    ((Controller.afterReads ctlFix 9).read).1 = 0 ∧
    ctlFix.button_states &&& 0x80 ≠ 0 ∧ ctlFix.strobe = false := by decide

lemma mirror_vram_addr_congr (p : PPU) (addr : Nat) :
    p.mirror_vram_addr addr = (PPU.new [] p.mirroring).mirror_vram_addr addr := rfl

lemma mirrorV1 : ∀ hi < 0x10, ∀ lo < 0x100,
    (PPU.new [] Mirroring.VERTICAL).mirror_vram_addr (0x2000 + (0x100 * hi + lo)) =
      specMirror Mirroring.VERTICAL (0x2000 + (0x100 * hi + lo)) := by decide

lemma mirrorH1 : ∀ hi < 0x10, ∀ lo < 0x100,
    (PPU.new [] Mirroring.HORIZONTAL).mirror_vram_addr (0x2000 + (0x100 * hi + lo)) =
      specMirror Mirroring.HORIZONTAL (0x2000 + (0x100 * hi + lo)) := by decide

lemma mirrorF1 : ∀ hi < 0x10, ∀ lo < 0x100,
    (PPU.new [] Mirroring.FOUR_SCREEN).mirror_vram_addr (0x2000 + (0x100 * hi + lo)) =
      specMirror Mirroring.FOUR_SCREEN (0x2000 + (0x100 * hi + lo)) := by decide

lemma mirrorV2 : ∀ hi < 0xF, ∀ lo < 0x100,
    (PPU.new [] Mirroring.VERTICAL).mirror_vram_addr (0x3000 + (0x100 * hi + lo)) =
      (PPU.new [] Mirroring.VERTICAL).mirror_vram_addr (0x2000 + (0x100 * hi + lo)) := by decide

lemma mirrorH2 : ∀ hi < 0xF, ∀ lo < 0x100,
    (PPU.new [] Mirroring.HORIZONTAL).mirror_vram_addr (0x3000 + (0x100 * hi + lo)) =
      (PPU.new [] Mirroring.HORIZONTAL).mirror_vram_addr (0x2000 + (0x100 * hi + lo)) := by decide

lemma mirrorF2 : ∀ hi < 0xF, ∀ lo < 0x100,
    (PPU.new [] Mirroring.FOUR_SCREEN).mirror_vram_addr (0x3000 + (0x100 * hi + lo)) =
      (PPU.new [] Mirroring.FOUR_SCREEN).mirror_vram_addr (0x2000 + (0x100 * hi + lo)) := by decide

/-- C8: over 2000-3EFF, mirror_vram_addr realises the equivalence
classes of the spec: on 2000-2FFF it equals the physical index of the
logical table class with the offset kept (specMirror), and 3000-3EFF
aliases 2000-2EFF. -/
theorem mirror_vram_matches_classes (p : PPU) (addr : Nat)
    (h1 : 0x2000 ≤ addr) (h2 : addr ≤ 0x3EFF) :
    (addr ≤ 0x2FFF → p.mirror_vram_addr addr = specMirror p.mirroring addr) ∧
    (0x3000 ≤ addr → p.mirror_vram_addr addr = p.mirror_vram_addr (addr - 0x1000)) := by
  constructor
  · intro h3
    rw [mirror_vram_addr_congr]
    have he : 0x2000 + (addr - 0x2000) = addr := by omega
    cases hm : p.mirroring
    case VERTICAL =>
      have hlem := mirrorV1 ((addr - 0x2000) / 0x100) (by omega) ((addr - 0x2000) % 0x100) (by omega)
      rw [Nat.div_add_mod, he] at hlem
      exact hlem
    case HORIZONTAL =>
      have hlem := mirrorH1 ((addr - 0x2000) / 0x100) (by omega) ((addr - 0x2000) % 0x100) (by omega)
      rw [Nat.div_add_mod, he] at hlem
      exact hlem
    case FOUR_SCREEN =>
      have hlem := mirrorF1 ((addr - 0x2000) / 0x100) (by omega) ((addr - 0x2000) % 0x100) (by omega)
      rw [Nat.div_add_mod, he] at hlem
      exact hlem
  · intro h3
    rw [mirror_vram_addr_congr, mirror_vram_addr_congr p (addr - 0x1000)]
    have he1 : 0x3000 + (addr - 0x3000) = addr := by omega
    have he2 : 0x2000 + (addr - 0x3000) = addr - 0x1000 := by omega
    cases hm : p.mirroring
    case VERTICAL =>
      have hlem := mirrorV2 ((addr - 0x3000) / 0x100) (by omega) ((addr - 0x3000) % 0x100) (by omega)
      rw [Nat.div_add_mod, he1, he2] at hlem
      exact hlem
    case HORIZONTAL =>
      have hlem := mirrorH2 ((addr - 0x3000) / 0x100) (by omega) ((addr - 0x3000) % 0x100) (by omega)
      rw [Nat.div_add_mod, he1, he2] at hlem
      exact hlem
    case FOUR_SCREEN =>
      have hlem := mirrorF2 ((addr - 0x3000) / 0x100) (by omega) ((addr - 0x3000) % 0x100) (by omega)
      rw [Nat.div_add_mod, he1, he2] at hlem
      exact hlem

/-- Witness for C8 at address 2105 under vertical mirroring. -/
theorem mirror_vram_matches_classes_witness :
    ((0x2105:Nat) ≤ 0x2FFF →
      (PPU.new [] Mirroring.VERTICAL).mirror_vram_addr 0x2105 =
        specMirror (PPU.new [] Mirroring.VERTICAL).mirroring 0x2105) ∧
    ((0x3000:Nat) ≤ 0x2105 →
      (PPU.new [] Mirroring.VERTICAL).mirror_vram_addr 0x2105 =
        (PPU.new [] Mirroring.VERTICAL).mirror_vram_addr (0x2105 - 0x1000)) :=
  mirror_vram_matches_classes (PPU.new [] Mirroring.VERTICAL) 0x2105 (by norm_num) (by norm_num)

/-- C7 evaluation at the failing input: Rom::new accepts the header
rawMapper1, whose high nibble of byte 6 makes the mapper id 1, and
returns a ROM image with mapper 1 recorded; the claim requires loading
to fail fatally for every nonzero mapper id. -/
theorem rom_new_accepts_nonzero_mapper :
    (Rom.new rawMapper1).isSome = true ∧
    (Rom.new rawMapper1).map Rom.mapper = some 1 := by decide

lemma read_prg_rom_eq (b : Bus) (addr : Nat) :
    b.read_prg_rom addr =
      b.prg_rom[if b.prg_rom.length = 0x4000 ∧ (addr + 65536 - 0x8000) % 65536 ≥ 0x4000
        then ((addr + 65536 - 0x8000) % 65536) % 0x4000
        else (addr + 65536 - 0x8000) % 65536]? := rfl

lemma mem_read_rom (b : Bus) (addr : Nat) (h1 : 0x8000 ≤ addr) (h2 : addr ≤ 0xFFFF) :
    Bus.mem_read b addr = (b.read_prg_rom addr).map (fun v => (v, b)) := by
  unfold Bus.mem_read
  rw [show (2:Nat) = 1 + 1 from rfl]
  simp only [Bus.memReadGo]
  rw [if_neg (by omega), if_neg (fun hc => by omega), if_neg (by push_neg; omega),
      if_neg (by omega), if_neg (fun hc => by omega), if_neg (by push_neg; omega),
      if_neg (by omega), if_neg (fun hc => by omega),
      if_pos (by omega : 0x8000 ≤ addr ∧ addr ≤ 0xFFFF)]
  rcases hr : b.read_prg_rom addr with _ | v <;> rfl

/-- C10: on a bus whose program ROM is exactly 16 KiB or 32 KiB, every
CPU read of an address in 8000-FFFF reaches a program ROM byte and
cannot abort: the offset is reduced modulo 0x4000 for a 16 KiB image,
so the index is always in bounds. -/
theorem prg_read_in_bounds (b : Bus) (addr : Nat)
    (hlen : b.prg_rom.length = 0x4000 ∨ b.prg_rom.length = 0x8000)
    (h1 : 0x8000 ≤ addr) (h2 : addr ≤ 0xFFFF) :
    (∃ v, b.read_prg_rom addr = some v ∧ Bus.mem_read b addr = some (v, b)) ∧
    (b.prg_rom.length = 0x4000 →
      b.read_prg_rom addr = b.prg_rom[(addr - 0x8000) % 0x4000]?) := by
  have hsub : (addr + 65536 - 0x8000) % 65536 = addr - 0x8000 := by omega
  constructor
  · have hidx : ∃ i, i < b.prg_rom.length ∧ b.read_prg_rom addr = b.prg_rom[i]? := by
      rw [read_prg_rom_eq, hsub]
      by_cases hc : b.prg_rom.length = 0x4000 ∧ addr - 0x8000 ≥ 0x4000
      · rw [if_pos hc]
        exact ⟨(addr - 0x8000) % 0x4000, by omega, rfl⟩
      · rw [if_neg hc]
        refine ⟨addr - 0x8000, ?_, rfl⟩
        rcases hlen with hl | hl <;> omega
    obtain ⟨i, hi, he⟩ := hidx
    refine ⟨b.prg_rom[i], ?_, ?_⟩
    · rw [he, List.getElem?_eq_getElem hi]
    · rw [mem_read_rom b addr h1 h2, he, List.getElem?_eq_getElem hi]
      rfl
  · intro hl
    rw [read_prg_rom_eq, hsub]
    by_cases hge : addr - 0x8000 ≥ 0x4000
    · rw [if_pos ⟨hl, hge⟩]
    · rw [if_neg (by omega)]
      rw [Nat.mod_eq_of_lt (show addr - 0x8000 < 0x4000 by omega)]

/-- Witness for C10 on the 16 KiB zero image at address FFFC. -/
theorem prg_read_in_bounds_witness :
    (∃ v, busFix.read_prg_rom 0xFFFC = some v ∧
      Bus.mem_read busFix 0xFFFC = some (v, busFix)) ∧
    (busFix.prg_rom.length = 0x4000 →
      busFix.read_prg_rom 0xFFFC = busFix.prg_rom[(0xFFFC - 0x8000) % 0x4000]?) :=
  prg_read_in_bounds busFix 0xFFFC
    (Or.inl (by show zeroPrg.length = 0x4000; rw [zeroPrg, List.length_replicate]))
    (by norm_num) (by norm_num)

lemma lor_and_two_pow_self (y i : Nat) : (y ||| 2^i) &&& 2^i = 2^i := by
  rw [Nat.and_two_pow, Nat.testBit_lor, Nat.testBit_two_pow]
  simp

/-- C6 amended: during PPU ticking, when the dot counter crosses the
end of a scanline (reaching 341) with MASK bit 4 (show sprites) on,
OAM[0] equal to the current scanline minus 4, and OAM[3] at most the
dot count, the sprite-0-hit bit (status bit 6) becomes set; the check
happens only at the end of a scanline and compares OAM[0] against the
scanline minus 4, not against the scanline itself. -/
theorem sprite0_hit_amended
    (chr pal vr oam : List Nat) (m : Mirroring)
    (ahi alo ctrl mask stat oamaddr fsx fsy sx sy dbuf vv tt xx : Nat)
    (latch nmi : Bool) (s : Nat)
    (hs4 : 4 ≤ s) (hs : s ≤ 259) (hs241 : s ≠ 240)
    (hmask : mask &&& 0x10 ≠ 0)
    (hoam0 : oam.getD 0 0 = s - 4) (hoam3 : oam.getD 3 0 ≤ 341) :
    (((⟨chr, pal, vr, oam, m, ahi, alo, ctrl, mask, stat, oamaddr, fsx, fsy,
        sx, sy, dbuf, vv, tt, xx, latch, 340, s, nmi⟩ : PPU).tick 1).1).stat &&& 0x40 = 0x40 := by
  have hhit : (⟨chr, pal, vr, oam, m, ahi, alo, ctrl, mask, stat, oamaddr, fsx, fsy,
      sx, sy, dbuf, vv, tt, xx, latch, 341, s, nmi⟩ : PPU).is_sprite_0_hit 341 = true := by
    unfold PPU.is_sprite_0_hit
    simp only [decide_eq_true_eq]
    refine ⟨?_, hoam3, hmask⟩
    rw [hoam0]
    omega
  have hstep : (⟨chr, pal, vr, oam, m, ahi, alo, ctrl, mask, stat, oamaddr, fsx, fsy,
      sx, sy, dbuf, vv, tt, xx, latch, 340, s, nmi⟩ : PPU).tickStep =
      ⟨chr, pal, vr, oam, m, ahi, alo, ctrl, mask, stat ||| 0x40, oamaddr, fsx, fsy,
        sx, sy, dbuf, vv, tt, xx, latch, 0, (s + 1) % 65536, nmi⟩ := by
    unfold PPU.tickStep
    norm_num
    simp [hhit]
  have hsc : (s + 1) % 65536 = s + 1 := by omega
  unfold PPU.tick
  simp only [PPU.tickLoop]
  rw [hstep]
  simp only [hsc]
  rw [if_neg (by omega : ¬(s + 1 = 241))]
  rw [if_neg (by omega : ¬(s + 1 > 261))]
  show (stat ||| 0x40) &&& 0x40 = 0x40
  rw [show (0x40:Nat) = 2^6 from rfl]
  exact lor_and_two_pow_self stat 6

/-- C6 counterexample: a PPU with sprites enabled whose current
scanline equals OAM[0] (both 10) and whose dot (341 at the end of the
scanline) is at least OAM[3] (0) does not get the sprite-0-hit bit:
the code compares OAM[0] to scanline minus 4. -/
theorem sprite0_hit_claim_counterexample :
    ppuHitFix.mask &&& 0x10 ≠ 0 ∧
    ppuHitFix.oam_data.getD 0 0 = ppuHitFix.scanlines ∧
    ppuHitFix.oam_data.getD 3 0 ≤ 341 ∧
    ((ppuHitFix.tick 1).1.stat &&& 0x40) = 0 := by decide

/-- Witness for the amended C6 at scanline 14 with OAM[0] = 10. -/
theorem sprite0_hit_amended_witness :
    (((⟨[], List.replicate 0x20 0, List.replicate 0x800 0,
        (List.replicate 0x100 0).set 0 10, Mirroring.HORIZONTAL,
        0, 0, 0, 0x10, (0:Nat), 0, 0, (0:Nat), 0, 0, (0:Nat), 0, 0, (0:Nat),
        false, 340, 14, false⟩ : PPU).tick 1).1).stat
      &&& 0x40 = 0x40 :=
  sprite0_hit_amended [] (List.replicate 0x20 0) (List.replicate 0x800 0)
    ((List.replicate 0x100 0).set 0 10) Mirroring.HORIZONTAL
    0 0 0 0x10 0 0 0 0 0 0 0 0 0 0 false false 14
    (by norm_num) (by norm_num) (by norm_num) (by decide) (by decide) (by decide)

lemma oamDmaCopy_none : ∀ count oam i base data, oam.length = 256 →
    count ≥ 1 → base + i + count > 256 →
    oamDmaCopy base data oam i count = none := by
  intro count
  induction count with
  | zero => intro oam i base data _ h1 _; omega
  | succ c ih =>
    intro oam i base data hlen h1 hsum
    show oamDmaCopy base data oam i (Nat.succ c) = none
    rw [oamDmaCopy.eq_2]
    rcases hd : data[i]? with _ | d
    · rfl
    · simp only [Option.some_bind]
      unfold setChecked
      by_cases hb : base + i < oam.length
      · rw [if_pos hb]
        simp only [Option.some_bind]
        rcases Nat.eq_zero_or_pos c with hc0 | hc1
        · exfalso
          rw [hlen] at hb
          omega
        · exact ih (oam.set (base + i) d) (i + 1) base data
            (by rw [List.length_set]; exact hlen) hc1 (by omega)
      · rw [if_neg hb]
        rfl

/-- C4 evaluation: with the OAM cursor at 1 (any nonzero cursor), the
DMA copy loop indexes oam_data[1 + 255] = oam_data[256], one past the
end of OAM, and the write aborts instead of wrapping to OAM[0]. -/
theorem oam_dma_aborts (p : PPU) (data : List Nat)
    (hlen : p.oam_data.length = 256) (haddr : p.oam_addr = 1) :
    p.write_oam_dma data = none := by
  unfold PPU.write_oam_dma
  rw [haddr]
  rw [oamDmaCopy_none 256 p.oam_data 0 1 data hlen (by norm_num) (by norm_num)]
  rfl

/-- Witness for the C4 evaluation: the fixture PPU with OAM cursor 1
aborts the DMA of a zero page. -/
theorem oam_dma_aborts_witness :
    busDmaFix.ppu.write_oam_dma (List.replicate 256 0) = none :=
  oam_dma_aborts busDmaFix.ppu (List.replicate 256 0)
    (by show (List.replicate 0x100 (0:Nat)).length = 256; rw [List.length_replicate])
    rfl

lemma and_7FF_eq (x : Nat) (h : x < 0x800) : x &&& 0x07FF = x := by
  rw [show (0x07FF:Nat) = 2^11 - 1 from rfl, Nat.and_pow_two_sub_one_eq_mod]
  exact Nat.mod_eq_of_lt (by norm_num; omega)

lemma mem_write_ram (b : Bus) (addr v : Nat) (ha : addr ≤ 0x1FFF)
    (hlen : addr &&& 0x07FF < b.cpu_vram.length) :
    Bus.mem_write b addr v = some { b with cpu_vram := b.cpu_vram.set (addr &&& 0x07FF) v } := by
  unfold Bus.mem_write
  rw [show (2:Nat) = 1 + 1 from rfl]
  simp only [Bus.memWriteGo]
  rw [if_pos ha]
  unfold setChecked
  rw [if_pos hlen]
  rfl

lemma stack_push_eq (c : CPU) (v : Nat) (hlen : c.mem_bus.cpu_vram.length = 2048)
    (hsp1 : 1 ≤ c.reg_sp) (hsp2 : c.reg_sp ≤ 0xFF) :
    CPU.stack_push c v = some { c with
      mem_bus := { c.mem_bus with cpu_vram := c.mem_bus.cpu_vram.set (0x0100 + c.reg_sp) v },
      reg_sp := c.reg_sp - 1 } := by
  unfold CPU.stack_push
  have hmask : (0x0100 + c.reg_sp) &&& 0x07FF = 0x0100 + c.reg_sp := and_7FF_eq _ (by omega)
  rw [mem_write_ram _ _ _ (by omega) (by rw [hmask, hlen]; omega)]
  rw [hmask]
  simp only [Option.some_bind]
  rw [if_neg (by omega : ¬c.reg_sp = 0)]

lemma read_zero_prg (b : Bus) (addr : Nat) (hprg : b.prg_rom = zeroPrg)
    (h1 : 0x8000 ≤ addr) (h2 : addr ≤ 0xFFFF) :
    b.read_prg_rom addr = some 0 := by
  rw [read_prg_rom_eq, hprg]
  have hsub : (addr + 65536 - 0x8000) % 65536 = addr - 0x8000 := by omega
  rw [hsub]
  have hlen : zeroPrg.length = 0x4000 := by rw [zeroPrg, List.length_replicate]
  by_cases hge : addr - 0x8000 ≥ 0x4000
  · rw [if_pos ⟨hlen, hge⟩, zeroPrg, List.getElem?_replicate, if_pos (by omega)]
  · rw [if_neg (fun hh => hge hh.2), zeroPrg, List.getElem?_replicate, if_pos (by omega)]

lemma mem_read16_zero_prg (b : Bus) (addr : Nat) (hprg : b.prg_rom = zeroPrg)
    (h1 : 0x8000 ≤ addr) (h2 : addr ≤ 0xFFFE) :
    Bus.mem_read16 b addr = some (0, b) := by
  unfold Bus.mem_read16
  rw [mem_read_rom b addr h1 (by omega), read_zero_prg b addr hprg h1 (by omega)]
  simp only [Option.map_some', Option.some_bind]
  rw [show (addr + 1) % 65536 = addr + 1 by omega]
  rw [mem_read_rom b (addr + 1) (by omega) (by omega),
      read_zero_prg b (addr + 1) hprg (by omega) (by omega)]
  simp only [Option.map_some', Option.some_bind]
  norm_num

lemma cpu_mem_read16_zero_prg (c : CPU) (addr : Nat) (hprg : c.mem_bus.prg_rom = zeroPrg)
    (h1 : 0x8000 ≤ addr) (h2 : addr ≤ 0xFFFE) :
    CPU.mem_read16 c addr = some (0, c) := by
  unfold CPU.mem_read16
  rw [mem_read16_zero_prg c.mem_bus addr hprg h1 h2]
  simp only [Option.some_bind]

/-- C3 evaluation at the failing input: from status 0x20 (InterruptDisable
clear), BRK leaves the final status 0x30: it sets bit 4 (Break) in the
live status register, and bit 2 (InterruptDisable) stays clear, against
the claim that BRK sets the InterruptDisable flag. -/
theorem brk_eval (c : CPU)
    (hprg : c.mem_bus.prg_rom = zeroPrg)
    (hlen : c.mem_bus.cpu_vram.length = 2048)
    (hsp : c.reg_sp = 0xFD) (hstat : c.reg_stat = 0x20) :
    (CPU.brk c).map (fun c2 => (c2.reg_stat &&& 0x04, c2.reg_stat)) = some (0, 0x30) := by
  unfold CPU.brk CPU.stack_push16
  rw [stack_push_eq c _ hlen (by omega) (by omega)]
  simp only [Option.some_bind]
  rw [stack_push_eq _ _
    (by show (c.mem_bus.cpu_vram.set (0x0100 + c.reg_sp) (c.reg_pc >>> 8)).length = 2048
        rw [List.length_set]; exact hlen)
    (by show 1 ≤ c.reg_sp - 1; omega)
    (by show c.reg_sp - 1 ≤ 0xFF; omega)]
  simp only [Option.some_bind]
  rw [stack_push_eq _ _
    (by show ((c.mem_bus.cpu_vram.set (0x0100 + c.reg_sp) (c.reg_pc >>> 8)).set
          (0x0100 + (c.reg_sp - 1)) (c.reg_pc &&& 0x00FF)).length = 2048
        rw [List.length_set, List.length_set]; exact hlen)
    (by show 1 ≤ c.reg_sp - 1 - 1; omega)
    (by show c.reg_sp - 1 - 1 ≤ 0xFF; omega)]
  simp only [Option.some_bind]
  rw [cpu_mem_read16_zero_prg _ 0xFFFE
    (by show c.mem_bus.prg_rom = zeroPrg; exact hprg) (by norm_num) (by norm_num)]
  simp only [Option.some_bind, Option.map_some']
  show some ((c.reg_stat ||| 0x10) &&& 0x04, c.reg_stat ||| 0x10) = some (0, 0x30)
  rw [hstat]
  decide


/-- C2 evaluation at the failing input: servicing an NMI from status
0x30 pushes the status byte 0x30 - bit 4 is still set, because
reg_stat | 0x20 & 0xEF parses as reg_stat | (0x20 & 0xEF) - and adds 2
cycles, against the claim of a pushed byte with bit 4 clear and 7
cycles.  The confirmed parts also show: the in-service latch is set and
the final status has InterruptDisable (bit 2) set. -/
theorem nmi_service_eval (c : CPU)
    (hprg : c.mem_bus.prg_rom = zeroPrg)
    (hlen : c.mem_bus.cpu_vram.length = 2048)
    (hsp : c.reg_sp = 0xFD) (hstat : c.reg_stat = 0x30) (hcyc : c.cycles = 0)
    (hpoll : c.mem_bus.ppu.nmi_interrupt = true) (hflag : c.nmi_flag = false) :
    (CPU.nmiService c).map
      (fun c2 => (c2.mem_bus.cpu_vram.getD 0x1FB 0, c2.cycles, c2.nmi_flag,
        c2.reg_stat &&& 0x04))
      = some (0x30, 2, true, 0x04) := by
  unfold CPU.nmiService
  rw [if_pos (And.intro (show c.mem_bus.poll_nmi_status = true from hpoll)
        (by simp [hflag]))]
  unfold CPU.interrupt_nmi CPU.stack_push16
  rw [stack_push_eq c _ hlen (by omega) (by omega)]
  simp only [Option.some_bind]
  rw [stack_push_eq _ _
    (by show (c.mem_bus.cpu_vram.set (0x0100 + c.reg_sp) (c.reg_pc >>> 8)).length = 2048
        rw [List.length_set]; exact hlen)
    (by show 1 ≤ c.reg_sp - 1; omega)
    (by show c.reg_sp - 1 ≤ 0xFF; omega)]
  simp only [Option.some_bind]
  rw [stack_push_eq _ _
    (by show ((c.mem_bus.cpu_vram.set (0x0100 + c.reg_sp) (c.reg_pc >>> 8)).set
          (0x0100 + (c.reg_sp - 1)) (c.reg_pc &&& 0x00FF)).length = 2048
        rw [List.length_set, List.length_set]; exact hlen)
    (by show 1 ≤ c.reg_sp - 1 - 1; omega)
    (by show c.reg_sp - 1 - 1 ≤ 0xFF; omega)]
  simp only [Option.some_bind]
  rw [cpu_mem_read16_zero_prg _ 0xFFFA
    (by show c.mem_bus.prg_rom = zeroPrg; exact hprg) (by norm_num) (by norm_num)]
  simp only [Option.some_bind, Option.map_some']
  show some
    ((((c.mem_bus.cpu_vram.set (0x0100 + c.reg_sp) (c.reg_pc >>> 8)).set
        (0x0100 + (c.reg_sp - 1)) (c.reg_pc &&& 0x00FF)).set
        (0x0100 + (c.reg_sp - 1 - 1)) (c.reg_stat ||| (0x20 &&& 0xEF))).getD 0x1FB 0,
     (c.cycles + 2) % 256, true, (c.reg_stat ||| 0x04) &&& 0x04) = some (0x30, 2, true, 0x04)
  rw [hsp, hstat, hcyc]
  rw [show (0x0100:Nat) + (0xFD - 1 - 1) = 0x1FB by norm_num]
  rw [List.getD_eq_getElem?_getD,
      List.getElem?_set_self (by
        rw [List.length_set, List.length_set]
        rw [hlen]
        norm_num)]
  decide

/-- Witness for the C3 evaluation at the concrete fixture CPU. -/
theorem brk_eval_witness :
    (CPU.brk cpuBrkFix).map (fun c2 => (c2.reg_stat &&& 0x04, c2.reg_stat)) = some (0, 0x30) :=
  brk_eval cpuBrkFix rfl
    (by show (List.replicate 2048 (0:Nat)).length = 2048; rw [List.length_replicate])
    rfl rfl

/-- Witness for the C2 evaluation at the concrete fixture CPU. -/
theorem nmi_service_eval_witness :
    (CPU.nmiService cpuNmiFix).map
      (fun c2 => (c2.mem_bus.cpu_vram.getD 0x1FB 0, c2.cycles, c2.nmi_flag,
        c2.reg_stat &&& 0x04))
      = some (0x30, 2, true, 0x04) :=
  nmi_service_eval cpuNmiFix rfl
    (by show (List.replicate 2048 (0:Nat)).length = 2048; rw [List.length_replicate])
    rfl rfl rfl rfl rfl
